import Mathlib

set_option maxRecDepth 8192

namespace PhotoWaterMark

/-! Shallow embedding of the NJU_SE_PhotoWaterMark repository.

The embedding follows `src/src/exif_reader/exif_reader.py`,
`src/src/watermark/watermark_processor.py` and `src/src/utils/config.py`.
Python `datetime.strptime`/`strftime` over the concrete formats used by the
code ("%Y:%m:%d", "%Y-%m-%d", "%Y/%m/%d", "%d/%m/%Y", "%Y-%m-%d %H:%M:%S")
is modelled at the character level, matching CPython's `_strptime` regexes
(`%Y` is exactly four digits, `%m`/`%d` are one or two digits within range)
followed by the `datetime` constructor's calendar validation. -/

/-- A calendar date as held by a Python `datetime` value. -/
structure Date where
  y : Nat
  m : Nat
  d : Nat
deriving DecidableEq

/-- Gregorian leap-year rule used by `datetime`. -/
def isLeapYear (y : Nat) : Bool :=
  (y % 4 == 0 && y % 100 != 0) || (y % 400 == 0)

/-- Number of days in a month, as validated by the `datetime` constructor. -/
def daysInMonth (y m : Nat) : Nat :=
  if m = 2 then (if isLeapYear y then 29 else 28)
  else if m = 4 ∨ m = 6 ∨ m = 9 ∨ m = 11 then 30
  else 31

/-- `datetime(year, month, day)` constructor validity (MINYEAR=1, MAXYEAR=9999). -/
def validDate (dt : Date) : Bool :=
  1 ≤ dt.y && dt.y ≤ 9999 && 1 ≤ dt.m && dt.m ≤ 12 &&
    1 ≤ dt.d && dt.d ≤ daysInMonth dt.y dt.m

/-- Numeric value of a digit character. -/
def digitVal (c : Char) : Nat := c.toNat - 48

/-- CPython `%Y`: exactly four digits. -/
def parse4Digits : List Char → Option (Nat × List Char)
  | a :: b :: c :: d :: rest =>
    if a.isDigit && b.isDigit && c.isDigit && d.isDigit then
      some (1000 * digitVal a + 100 * digitVal b + 10 * digitVal c + digitVal d, rest)
    else
      none
  | _ => none

/-- CPython `%m`/`%d`: one or two digits whose value lies in `[lo, hi]`
(two-digit matches require a valid value; a lone digit must be nonzero). -/
def parseField2 (lo hi : Nat) : List Char → Option (Nat × List Char)
  | c1 :: c2 :: rest =>
    if c1.isDigit then
      if c2.isDigit then
        let v := 10 * digitVal c1 + digitVal c2
        if lo ≤ v && v ≤ hi then some (v, rest) else none
      else if 1 ≤ digitVal c1 then some (digitVal c1, c2 :: rest) else none
    else none
  | [c1] => if c1.isDigit && 1 ≤ digitVal c1 then some (digitVal c1, ([] : List Char)) else none
  | [] => none

/-- Match one literal separator character. -/
def parseSep (sep : Char) : List Char → Option (List Char)
  | c :: rest => if c = sep then some rest else none
  | [] => none

/-- Parse `YYYY<sep>MM<sep>DD` consuming the whole input. -/
def parseYMD (sep : Char) (cs : List Char) : Option Date := do
  let (y, r1) ← parse4Digits cs
  let r2 ← parseSep sep r1
  let (m, r3) ← parseField2 1 12 r2
  let r4 ← parseSep sep r3
  let (d, r5) ← parseField2 1 31 r4
  if r5.isEmpty then pure ⟨y, m, d⟩ else none

/-- Parse `DD<sep>MM<sep>YYYY` consuming the whole input. -/
def parseDMY (sep : Char) (cs : List Char) : Option Date := do
  let (d, r1) ← parseField2 1 31 cs
  let r2 ← parseSep sep r1
  let (m, r3) ← parseField2 1 12 r2
  let r4 ← parseSep sep r3
  let (y, r5) ← parse4Digits r4
  if r5.isEmpty then pure ⟨y, m, d⟩ else none

/-- `datetime.strptime` for a pure date format: syntactic parse followed by
the `datetime` constructor's calendar validation. -/
def strptimeDate (p : List Char → Option Date) (s : String) : Option Date :=
  match p s.data with
  | some dt => if validDate dt then some dt else none
  | none => none

/-- The character for a decimal digit. -/
def digitChar (n : Nat) : Char := Char.ofNat (48 + n % 10)

/-- Two-digit zero-padded rendering (`%m`, `%d`, `%H`, `%M`, `%S`). -/
def pad2 (n : Nat) : String := String.mk [digitChar (n / 10), digitChar n]

/-- Four-digit zero-padded rendering (`%Y`). -/
def pad4 (n : Nat) : String :=
  String.mk [digitChar (n / 1000), digitChar (n / 100), digitChar (n / 10), digitChar n]

/-- `strftime("%Y-%m-%d")`. -/
def formatDate (dt : Date) : String := pad4 dt.y ++ "-" ++ pad2 dt.m ++ "-" ++ pad2 dt.d

/-- Rendering of the EXIF date convention `YYYY:MM:DD`. -/
def formatColonDate (dt : Date) : String := pad4 dt.y ++ ":" ++ pad2 dt.m ++ ":" ++ pad2 dt.d

/-- Python `s.split(' ')[0]`: the characters before the first space. -/
def beforeFirstSpace (s : String) : String := String.mk (s.data.takeWhile (fun c => c != ' '))

/-- Python `c in s` for a single character. -/
def containsChar (s : String) (c : Char) : Bool := s.data.any (fun x => x == c)

/-- Python `s[:10]`. -/
def take10 (s : String) : String := String.mk (s.data.take 10)

/-- `ExifReader._parse_date_string` (exif_reader.py lines 262-293): empty
strings are rejected; a string containing both a colon and a space is parsed
only against `"%Y:%m:%d"` applied to the part before the first space (a
failure there falls into the enclosing `except` and yields `None`); any other
string has its first 10 characters tried against `"%Y-%m-%d"`, `"%Y/%m/%d"`,
`"%d/%m/%Y"` in order; a success is rendered with `strftime("%Y-%m-%d")`. -/
def parse_date_string (date_str : String) : Option String :=
  if date_str = "" then none
  else if containsChar date_str ':' && containsChar date_str ' ' then
    (strptimeDate (parseYMD ':') (beforeFirstSpace date_str)).map formatDate
  else
    ((strptimeDate (parseYMD '-') (take10 date_str)).map formatDate) <|>
    (((strptimeDate (parseYMD '/') (take10 date_str)).map formatDate) <|>
     ((strptimeDate (parseDMY '/') (take10 date_str)).map formatDate))

/-- PIL `Image.getexif()` data for a file: the top-level tag table, and the
Exif sub-IFD returned by `get_ifd(0x8769)` where `none` models the lookup
raising an exception and `some []` an empty (falsy) sub-block. -/
structure PilData where
  main : List (Nat × String)
  ifd : Option (List (Nat × String))
deriving DecidableEq

/-- A Python datetime (date plus time of day), e.g. the value of
`datetime.fromtimestamp(os.path.getmtime(p))`. -/
structure PyDateTime where
  date : Date
  hh : Nat
  mi : Nat
  ss : Nat
deriving DecidableEq

/-- `strftime("%Y-%m-%d %H:%M:%S")`. -/
def formatDateTime (t : PyDateTime) : String :=
  formatDate t.date ++ " " ++ pad2 t.hh ++ ":" ++ pad2 t.mi ++ ":" ++ pad2 t.ss

/-- The observable metadata environment of one image file, as seen by
`ExifReader`. `pil = none` models `Image.open` raising or `getexif()`
returning a falsy table; `exifreadTags = none` models `exifread.process_file`
raising; `mtime = none` models `os.path.getmtime` raising. -/
structure ExifEnv where
  fileExists : Bool
  isFile : Bool
  pilAvailable : Bool
  pil : Option PilData
  exifreadAvailable : Bool
  exifreadTags : Option (List (String × String))
  mtime : Option PyDateTime
deriving DecidableEq

/-- The tag loops of `_get_date_with_pil`: the first tag that is present and
whose value parses wins; a present but unparseable tag falls through to the
next tag. -/
def tryDateTags (tags : List Nat) (m : List (Nat × String)) : Option String :=
  match tags with
  | [] => none
  | t :: ts =>
    match m.lookup t with
    | some s =>
      match parse_date_string s with
      | some d => some d
      | none => tryDateTags ts m
    | none => tryDateTags ts m

/-- `ExifReader._get_date_with_pil` (exif_reader.py lines 121-156): the Exif
sub-IFD is consulted first for DateTimeOriginal (36867) then
DateTimeDigitized (36868); whenever that yields nothing — including when the
sub-block is present but holds no parseable date tag — the top-level table is
consulted for 36867, 36868 and DateTime (306). -/
def get_date_with_pil (env : ExifEnv) : Option String :=
  match env.pil with
  | none => none
  | some pd =>
    let fromIfd :=
      match pd.ifd with
      | some ifd => if ifd.isEmpty then none else tryDateTags [36867, 36868] ifd
      | none => none
    match fromIfd with
    | some d => some d
    | none => tryDateTags [36867, 36868, 306] pd.main

/-- The tag loop of `_get_date_with_exifread`: the first *present* tag is
returned after parsing, even if parsing that tag fails. -/
def firstPresentTag (names : List String) (tags : List (String × String)) : Option String :=
  match names with
  | [] => none
  | n :: ns =>
    match tags.lookup n with
    | some v => parse_date_string v
    | none => firstPresentTag ns tags

/-- `ExifReader._get_date_with_exifread` (exif_reader.py lines 158-179). -/
def get_date_with_exifread (env : ExifEnv) : Option String :=
  match env.exifreadTags with
  | none => none
  | some tags =>
    firstPresentTag ["EXIF DateTimeOriginal", "EXIF DateTimeDigitized", "Image DateTime"] tags

/-- `ExifReader._get_fallback_date` (exif_reader.py lines 295-314): the file
modification timestamp rendered as `%Y-%m-%d`, i.e. truncated to its date. -/
def get_fallback_date (env : ExifEnv) : Option String :=
  env.mtime.map (fun t => formatDate t.date)

/-- `ExifReader.get_date_taken` (exif_reader.py lines 84-119). -/
def get_date_taken (env : ExifEnv) (use_fallback : Bool) : Option String :=
  if !(env.fileExists && env.isFile) then none
  else
    match (if env.pilAvailable then get_date_with_pil env else none) with
    | some d => some d
    | none =>
      match (if env.exifreadAvailable then get_date_with_exifread env else none) with
      | some d => some d
      | none =>
        if use_fallback then
          match get_fallback_date env with
          | some d => some d
          | none => none
        else none

/-- The timestamp report built by `ExifReader.get_original_timestamp`
(the `file_path` entry, a constant echo of the argument, is omitted). -/
structure FullReport where
  exif_found : Bool
  datetime_original : Option String
  datetime_digitized : Option String
  datetime_modified : Option String
  file_modification_time : Option String
  source : Option String
deriving DecidableEq

/-- The dictionary returned by one full-EXIF strategy; `none` fields model
keys absent from the dictionary. -/
structure StrategyReport where
  source : String
  datetime_original : Option String
  datetime_digitized : Option String
  datetime_modified : Option String
deriving DecidableEq

/-- Python truthiness of an optional string value. -/
def truthy : Option String → Bool
  | some s => s != ""
  | none => false

/-- `dict.update`: keys present in the strategy dictionary overwrite the
report's fields, absent keys keep the old value; both strategies always carry
`exif_found=True` and their `source` name. -/
def applyUpdate (r : FullReport) (p : StrategyReport) : FullReport :=
  { r with
    exif_found := true
    source := some p.source
    datetime_original := match p.datetime_original with
      | some v => some v
      | none => r.datetime_original
    datetime_digitized := match p.datetime_digitized with
      | some v => some v
      | none => r.datetime_digitized
    datetime_modified := match p.datetime_modified with
      | some v => some v
      | none => r.datetime_modified }

/-- `ExifReader._get_full_exif_with_pil` (exif_reader.py lines 181-228):
DateTime (306) is read from the top-level table; DateTimeOriginal (36867) and
DateTimeDigitized (36868) are read from the sub-IFD when its lookup succeeds
and the sub-IFD is non-empty, from the top-level table when the lookup
raises, and not at all when the sub-IFD is empty; the dictionary is returned
only if at least one collected value is truthy. -/
def get_full_exif_with_pil (env : ExifEnv) : Option StrategyReport :=
  match env.pil with
  | none => none
  | some pd =>
    let dtMod := pd.main.lookup 306
    let dtOrigDig :=
      match pd.ifd with
      | some ifd =>
        if ifd.isEmpty then ((none : Option String), (none : Option String))
        else (ifd.lookup 36867, ifd.lookup 36868)
      | none => (pd.main.lookup 36867, pd.main.lookup 36868)
    if truthy dtOrigDig.1 || truthy dtOrigDig.2 || truthy dtMod then
      some ⟨"PIL", dtOrigDig.1, dtOrigDig.2, dtMod⟩
    else none

/-- `ExifReader._get_full_exif_with_exifread` (exif_reader.py lines 230-260):
any non-empty tag set yields a dictionary with `exif_found=True`, whether or
not any of the three date tags is present. -/
def get_full_exif_with_exifread (env : ExifEnv) : Option StrategyReport :=
  match env.exifreadTags with
  | none => none
  | some tags =>
    if tags.isEmpty then none
    else some ⟨"exifread", tags.lookup "EXIF DateTimeOriginal",
      tags.lookup "EXIF DateTimeDigitized", tags.lookup "Image DateTime"⟩

/-- The all-`None` report `get_original_timestamp` starts from. -/
def emptyReport : FullReport :=
  ⟨false, none, none, none, none, none⟩

/-- `ExifReader.get_original_timestamp` (exif_reader.py lines 37-82). -/
def get_original_timestamp (env : ExifEnv) : Option FullReport :=
  if !(env.fileExists && env.isFile) then none
  else
    let r1 :=
      if env.pilAvailable then
        match get_full_exif_with_pil env with
        | some p => applyUpdate emptyReport p
        | none => emptyReport
      else emptyReport
    let r2 :=
      if !r1.exif_found && env.exifreadAvailable then
        match get_full_exif_with_exifread env with
        | some p => applyUpdate r1 p
        | none => r1
      else r1
    some { r2 with file_modification_time := env.mtime.map formatDateTime }

/-- `WatermarkConfig` (config.py lines 11-18): a plain record; the
construction-time validation lives in `mkWatermarkConfig`. -/
structure WatermarkConfig where
  font_size : Int
  color : String
  position : String
  output_quality : Int
deriving DecidableEq

/-- The five anchor names accepted by `WatermarkConfig.__post_init__`. -/
def valid_positions : List String :=
  ["top-left", "top-right", "bottom-left", "bottom-right", "center"]

/-- `WatermarkConfig(...)` construction including `__post_init__` validation
(config.py lines 20-30); the checks run in source order, and the `color`
field is never examined. -/
def mkWatermarkConfig (font_size : Int) (color : String) (position : String)
    (output_quality : Int) : Except String WatermarkConfig :=
  if font_size ≤ 0 then .error "Font size must be positive"
  else if output_quality < 1 ∨ output_quality > 100 then
    .error "Output quality must be between 1 and 100"
  else if ¬ (position ∈ valid_positions) then
    .error "Position must be one of the valid positions"
  else .ok ⟨font_size, color, position, output_quality⟩

/-- Modelled from the spec: "color (named or hex color)". A color string is
valid when it is a common color name or a hash sign followed by 3 or 6
hexadecimal digits. The source has no color validation; this definition only
expresses the claim's notion of an invalid color. -/
def specIsValidColor (c : String) : Bool :=
  (["white", "black", "red", "green", "blue", "yellow", "cyan", "magenta",
    "gray", "grey", "orange", "purple", "brown", "pink"].contains c) ||
  (match c.data with
   | '#' :: rest =>
     (rest.length = 3 || rest.length = 6) &&
       rest.all (fun ch => ch.isDigit || ('a' ≤ ch && ch ≤ 'f') || ('A' ≤ ch && ch ≤ 'F'))
   | _ => false)

/-- A scalar value of the persisted configuration mapping. -/
inductive ConfigValue
  | i (n : Int)
  | s (v : String)
deriving DecidableEq

/-- `WatermarkConfig.to_dict` (config.py lines 32-39). -/
def to_dict (c : WatermarkConfig) : List (String × ConfigValue) :=
  [("font_size", .i c.font_size), ("color", .s c.color),
   ("position", .s c.position), ("output_quality", .i c.output_quality)]

/-- Keyword lookup for an `Int`-typed dataclass field with default. -/
def lookupInt (d : List (String × ConfigValue)) (k : String) (dflt : Int) :
    Except String Int :=
  match d.lookup k with
  | some (.i n) => .ok n
  | some (.s _) => .error "type error"
  | none => .ok dflt

/-- Keyword lookup for a `String`-typed dataclass field with default. -/
def lookupStr (d : List (String × ConfigValue)) (k : String) (dflt : String) :
    Except String String :=
  match d.lookup k with
  | some (.s v) => .ok v
  | some (.i _) => .error "type error"
  | none => .ok dflt

/-- `WatermarkConfig.from_dict`, i.e. `cls(**d)` (config.py lines 41-44): an
unexpected key raises `TypeError`; a missing key takes the dataclass default;
a value of the wrong type fails; otherwise the validating constructor runs. -/
def from_dict (d : List (String × ConfigValue)) : Except String WatermarkConfig :=
  if d.any (fun kv =>
      !(["font_size", "color", "position", "output_quality"].contains kv.1)) then
    .error "unexpected keyword argument"
  else do
    let fs ← lookupInt d "font_size" 36
    let c ← lookupStr d "color" "white"
    let p ← lookupStr d "position" "bottom-right"
    let q ← lookupInt d "output_quality" 95
    mkWatermarkConfig fs c p q

/-- Whether a construction succeeded (no exception escaped). -/
def isOk {ε α : Type} : Except ε α → Bool
  | .ok _ => true
  | .error _ => false

/-- A filesystem path: the components of the containing directory plus the
file name. -/
structure PyPath where
  parent : List String
  name : String
deriving DecidableEq

/-- Python `Path.suffix`: `name[i:]` for the rightmost dot index `i` when
`0 < i < len(name) - 1`, else the empty string. -/
def pySuffix (name : String) : String :=
  let cs := name.data
  let tail := cs.reverse.takeWhile (fun c => c != '.')
  if tail.length = cs.length then ""
  else if tail.length = 0 then ""
  else if tail.length = cs.length - 1 then ""
  else String.mk ('.' :: tail.reverse)

/-- ASCII lower-casing of one character; Python `str.lower` agrees with this
on the ASCII range, which covers every extension the code compares. -/
def asciiLower (c : Char) : Char :=
  if 'A' ≤ c ∧ c ≤ 'Z' then Char.ofNat (c.toNat + 32) else c

/-- Python `s.lower()`. -/
def strLower (s : String) : String := String.mk (s.data.map asciiLower)

/-- The allow-list of `WatermarkProcessor` (watermark_processor.py lines 374
and 397). -/
def supported_extensions : List String :=
  [".jpg", ".jpeg", ".png", ".tiff", ".tif", ".bmp"]

/-- `WatermarkProcessor._is_supported_image_format` (lines 387-398). -/
def is_supported_image_format (p : PyPath) : Bool :=
  supported_extensions.contains (strLower (pySuffix p.name))

/-- `ExifReader.get_supported_formats` (exif_reader.py lines 316-332): with
PIL available, the lower-cased registered PIL extensions that lie in the
fixed jpeg/tiff list; without PIL, that list itself. -/
def get_supported_formats (pilAvailable : Bool) (registered : List String) :
    List String :=
  if pilAvailable then
    (registered.map strLower).filter
      (fun e => [".jpg", ".jpeg", ".tiff", ".tif"].contains e)
  else [".jpg", ".jpeg", ".tiff", ".tif"]

/-- `ExifReader.is_supported_format` (exif_reader.py lines 334-344). -/
def exif_is_supported_format (pilAvailable : Bool) (registered : List String)
    (p : PyPath) : Bool :=
  (get_supported_formats pilAvailable registered).contains (strLower (pySuffix p.name))

/-- A decoded PIL image: dimensions, color mode, and the sequence of text
draw operations performed on it (x, y, text, fill color). -/
structure PyImage where
  width : Int
  height : Int
  mode : String
  drawn : List (Int × Int × String × String)
deriving DecidableEq

/-- The RGB conversion of `_add_watermark_to_image` (lines 122-123); it
produces a new image and leaves its argument untouched. -/
def ensureRGB (img : PyImage) : PyImage :=
  if img.mode != "RGB" then { img with mode := "RGB" } else img

/-- `ImageDraw.Draw(...).text(...)`: appends one draw operation. -/
def drawText (img : PyImage) (x y : Int) (text color : String) : PyImage :=
  { img with drawn := img.drawn ++ [(x, y, text, color)] }

/-- `WatermarkProcessor._calculate_text_position` (lines 314-339): the anchor
dictionary and its `.get` default, transliterated; `Int.fdiv` is Python's
floor division `//`. -/
def calculate_text_position (position : String) (image_size text_size : Int × Int) :
    Int × Int :=
  let margin : Int := 20
  if position = "top-left" then (margin, margin)
  else if position = "top-right" then (image_size.1 - text_size.1 - margin, margin)
  else if position = "bottom-left" then (margin, image_size.2 - text_size.2 - margin)
  else if position = "bottom-right" then
    (image_size.1 - text_size.1 - margin, image_size.2 - text_size.2 - margin)
  else if position = "center" then
    ((image_size.1 - text_size.1).fdiv 2, (image_size.2 - text_size.2).fdiv 2)
  else (image_size.1 - text_size.1 - margin, image_size.2 - text_size.2 - margin)

/-- The eight outline offsets of `_draw_watermark` (lines 177-185), in loop
order (`dx` outer, `dy` inner, skipping `(0, 0)`). -/
def outlineOffsets : List (Int × Int) :=
  [(-1, -1), (-1, 0), (-1, 1), (0, -1), (0, 1), (1, -1), (1, 0), (1, 1)]

/-- `WatermarkProcessor._draw_watermark` (lines 145-188): measure the text
(the font metric is an oracle `measure`), place it, draw the outline at the
eight neighbour offsets in a contrasting color, then the fill text on top. -/
def draw_watermark (cfg : WatermarkConfig) (measure : String → Int × Int)
    (text : String) (img : PyImage) : PyImage :=
  let ts := measure text
  let pos := calculate_text_position cfg.position (img.width, img.height) ts
  let outline := if strLower cfg.color != "black" then "black" else "white"
  let withOutline := outlineOffsets.foldl
    (fun im off => drawText im (pos.1 + off.1) (pos.2 + off.2) text outline) img
  drawText withOutline pos.1 pos.2 text cfg.color

/-- Filesystem state: the decoded content of each file, plus the set of
directories created so far. -/
structure FState where
  files : PyPath → Option PyImage
  dirs : List (List String)

/-- The sibling output directory `<parent>/<parent-basename>_watermark`
created by `_create_output_directory` (lines 341-361). -/
def outputDir (p : PyPath) : List String :=
  p.parent ++ [(p.parent.getLastD "") ++ "_watermark"]

/-- The output location `<parent>/<parent-basename>_watermark/<name.ext>`. -/
def outputPath (p : PyPath) : PyPath :=
  ⟨outputDir p, p.name⟩

/-- `output_dir.mkdir(exist_ok=True)`. -/
def addDir (d : List String) (ds : List (List String)) : List (List String) :=
  if ds.contains d then ds else ds ++ [d]

/-- The read-only processing environment: the metadata environment of each
path and the font-metric oracle. -/
structure ProcEnv where
  exif : PyPath → ExifEnv
  measure : String → Int × Int

/-- `WatermarkProcessor._add_watermark_to_image` (lines 102-143): create the
output directory, open the source, convert to RGB if needed, draw the
watermark on a copy, and save it under the original name in the output
directory, overwriting any previous file there. Absent content models
`Image.open` raising, which is caught and reported as failure. -/
def add_watermark_to_image (env : ProcEnv) (cfg : WatermarkConfig) (st : FState)
    (p : PyPath) (date_str : String) : Bool × FState :=
  let st1 : FState := { st with dirs := addDir (outputDir p) st.dirs }
  match st1.files p with
  | none => (false, st1)
  | some img =>
    let wm := draw_watermark cfg env.measure date_str (ensureRGB img)
    (true, { st1 with files := fun q => if q = outputPath p then some wm else st1.files q })

/-- `WatermarkProcessor.process_single_image` (lines 35-74): the format check
runs before any filesystem side effect; a missing date aborts before writing;
all exceptions become a `False` result. -/
def process_single_image (env : ProcEnv) (cfg : WatermarkConfig) (st : FState)
    (p : PyPath) : Bool × FState :=
  if !(is_supported_image_format p) then (false, st)
  else
    match get_date_taken (env.exif p) true with
    | none => (false, st)
    | some d => add_watermark_to_image env cfg st p d

/-- One entry of `Path.iterdir()`. -/
structure DirEntry where
  name : String
  isFile : Bool
deriving DecidableEq

/-- Insertion into a name-sorted list. -/
def insertByName (x : PyPath) : List PyPath → List PyPath
  | [] => [x]
  | y :: ys => if x.name ≤ y.name then x :: y :: ys else y :: insertByName x ys

/-- Python `sorted` on the paths of one directory (name order). -/
def sortByName (l : List PyPath) : List PyPath := l.foldr insertByName []

/-- `WatermarkProcessor._find_image_files` (lines 363-385): the directory's
direct entries that are files with an allow-listed extension
(case-insensitively), sorted by name. -/
def find_image_files (entries : List DirEntry) (dir : List String) : List PyPath :=
  sortByName ((entries.filter
    (fun e => e.isFile && supported_extensions.contains (strLower (pySuffix e.name)))).map
    (fun e => ⟨dir, e.name⟩))

/-- The for-loop of `process_directory` (lines 95-98). -/
def processLoop (env : ProcEnv) (cfg : WatermarkConfig) :
    FState → List PyPath → Nat → Nat × FState
  | st, [], acc => (acc, st)
  | st, p :: ps, acc =>
    let r := process_single_image env cfg st p
    processLoop env cfg r.2 ps (if r.1 then acc + 1 else acc)

/-- `WatermarkProcessor.process_directory` (lines 76-100). -/
def process_directory (env : ProcEnv) (cfg : WatermarkConfig) (st : FState)
    (entries : List DirEntry) (dir : List String) : (Nat × Nat) × FState :=
  let image_files := find_image_files entries dir
  let total := image_files.length
  if total = 0 then ((0, 0), st)
  else
    let r := processLoop env cfg st image_files 0
    ((r.1, total), r.2)

/-- Observation of a directory run: the success flag of each attempted file,
in attempt order. -/
def processFlags (env : ProcEnv) (cfg : WatermarkConfig) :
    FState → List PyPath → List Bool
  | _, [] => []
  | st, p :: ps =>
    let r := process_single_image env cfg st p
    r.1 :: processFlags env cfg r.2 ps

theorem data_mk (l : List Char) : (String.mk l).data = l := rfl

theorem digitChar_spec (n : Nat) : (digitChar n).isDigit = true ∧ digitVal (digitChar n) = n % 10 := by
  have h : n % 10 < 10 := Nat.mod_lt _ (by omega)
  unfold digitChar digitVal
  generalize n % 10 = k at h ⊢
  interval_cases k <;> exact ⟨rfl, rfl⟩

theorem isDigit_bne_space (c : Char) (h : c.isDigit = true) : (c != ' ') = true := by
  cases hc : c == ' '
  · simp [bne, hc]
  · have he : c = ' ' := eq_of_beq hc
    rw [he] at h
    exact absurd h (by decide)

theorem parse4Digits_pad4 (y : Nat) (rest : List Char) :
    parse4Digits ((pad4 y).data ++ rest) = some (y % 10000, rest) := by
  have h0 := digitChar_spec y
  have h1 := digitChar_spec (y / 10)
  have h2 := digitChar_spec (y / 100)
  have h3 := digitChar_spec (y / 1000)
  have hval : 1000 * (y / 1000 % 10) + 100 * (y / 100 % 10) + 10 * (y / 10 % 10) + y % 10 =
      y % 10000 := by omega
  show parse4Digits
      (digitChar (y / 1000) :: digitChar (y / 100) :: digitChar (y / 10) :: digitChar y :: rest) =
    some (y % 10000, rest)
  simp only [parse4Digits, h0.1, h1.1, h2.1, h3.1, h0.2, h1.2, h2.2, h3.2, Bool.and_self,
    if_true, hval]

theorem parseField2_pad2 (lo hi v : Nat) (hv : v ≤ 99) (h1 : lo ≤ v) (h2 : v ≤ hi)
    (rest : List Char) : parseField2 lo hi ((pad2 v).data ++ rest) = some (v, rest) := by
  have ha := digitChar_spec (v / 10)
  have hb := digitChar_spec v
  have hval : 10 * (v / 10 % 10) + v % 10 = v := by omega
  show parseField2 lo hi (digitChar (v / 10) :: digitChar v :: rest) = some (v, rest)
  simp only [parseField2, ha.1, hb.1, ha.2, hb.2, hval, if_true, h1, h2, decide_eq_true_eq,
    Bool.and_self, decide_True, Bool.and_true, Bool.true_and]

theorem takeWhile_append_stop (p : Char → Bool) (l1 l2 : List Char) (x : Char)
    (h : ∀ c ∈ l1, p c = true) (hx : p x = false) :
    (l1 ++ x :: l2).takeWhile p = l1 := by
  induction l1 with
  | nil => simp [List.takeWhile_cons, hx]
  | cons a l ih =>
    have ha := h a (List.mem_cons_self a l)
    simp [List.takeWhile_cons, ha, ih (fun c hc => h c (List.mem_cons_of_mem a hc))]

theorem daysInMonth_le_31 (y m : Nat) : daysInMonth y m ≤ 31 := by
  unfold daysInMonth
  split
  · split <;> omega
  · split <;> omega

theorem formatColonDate_data (dt : Date) :
    (formatColonDate dt).data =
      (pad4 dt.y).data ++ ':' :: ((pad2 dt.m).data ++ ':' :: (pad2 dt.d).data) := by
  have hc : (":" : String).data = [':'] := rfl
  simp [formatColonDate, String.data_append, hc, pad2, pad4, data_mk]

theorem mem_pad4_isDigit (n : Nat) (c : Char) (hc : c ∈ (pad4 n).data) : c.isDigit = true := by
  simp only [pad4, data_mk, List.mem_cons, List.not_mem_nil, or_false] at hc
  rcases hc with h | h | h | h <;> rw [h] <;> exact (digitChar_spec _).1

theorem mem_pad2_isDigit (n : Nat) (c : Char) (hc : c ∈ (pad2 n).data) : c.isDigit = true := by
  simp only [pad2, data_mk, List.mem_cons, List.not_mem_nil, or_false] at hc
  rcases hc with h | h <;> rw [h] <;> exact (digitChar_spec _).1

theorem mem_formatColonDate_bne_space (dt : Date) (c : Char)
    (hc : c ∈ (formatColonDate dt).data) : (c != ' ') = true := by
  rw [formatColonDate_data] at hc
  rcases List.mem_append.1 hc with h | h
  · exact isDigit_bne_space c (mem_pad4_isDigit _ _ h)
  · rcases List.mem_cons.1 h with h | h
    · rw [h]; decide
    · rcases List.mem_append.1 h with h | h
      · exact isDigit_bne_space c (mem_pad2_isDigit _ _ h)
      · rcases List.mem_cons.1 h with h | h
        · rw [h]; decide
        · exact isDigit_bne_space c (mem_pad2_isDigit _ _ h)

theorem validDate_bounds (dt : Date) (h : validDate dt = true) :
    1 ≤ dt.y ∧ dt.y ≤ 9999 ∧ 1 ≤ dt.m ∧ dt.m ≤ 12 ∧ 1 ≤ dt.d ∧ dt.d ≤ 31 := by
  simp only [validDate, Bool.and_eq_true, decide_eq_true_eq] at h
  have := daysInMonth_le_31 dt.y dt.m
  omega

theorem parseYMD_format (sep : Char) (dt : Date) (h : validDate dt = true) :
    parseYMD sep
      ((pad4 dt.y).data ++ sep :: ((pad2 dt.m).data ++ sep :: (pad2 dt.d).data)) = some dt := by
  obtain ⟨hy1, hy2, hm1, hm2, hd1, hd2⟩ := validDate_bounds dt h
  have h4 := parse4Digits_pad4 dt.y (sep :: ((pad2 dt.m).data ++ sep :: (pad2 dt.d).data))
  rw [Nat.mod_eq_of_lt (by omega)] at h4
  unfold parseYMD
  rw [h4]
  show (parseSep sep (sep :: ((pad2 dt.m).data ++ sep :: (pad2 dt.d).data))).bind _ = some dt
  rw [show parseSep sep (sep :: ((pad2 dt.m).data ++ sep :: (pad2 dt.d).data)) =
      some ((pad2 dt.m).data ++ sep :: (pad2 dt.d).data) by simp [parseSep]]
  show (parseField2 1 12 ((pad2 dt.m).data ++ sep :: (pad2 dt.d).data)).bind _ = some dt
  rw [parseField2_pad2 1 12 dt.m (by omega) hm1 hm2]
  show (parseSep sep (sep :: (pad2 dt.d).data)).bind _ = some dt
  rw [show parseSep sep (sep :: (pad2 dt.d).data) = some (pad2 dt.d).data by simp [parseSep]]
  show (parseField2 1 31 ((pad2 dt.d).data ++ [])).bind _ = some dt
  rw [show (pad2 dt.d).data ++ ([] : List Char) = (pad2 dt.d).data ++ [] from rfl,
    parseField2_pad2 1 31 dt.d (by omega) hd1 hd2]
  rfl

theorem strptime_colon_format (dt : Date) (h : validDate dt = true) :
    strptimeDate (parseYMD ':') (formatColonDate dt) = some dt := by
  unfold strptimeDate
  rw [formatColonDate_data, parseYMD_format ':' dt h]
  simp [h]

theorem append_space_data (a t : String) :
    (a ++ " " ++ t).data = a.data ++ ' ' :: t.data := by
  rw [String.data_append, String.data_append]
  rw [show (" " : String).data = [' '] from rfl, List.append_assoc]
  rfl

/-- C2 (amended): normalization does not try the formats as one ordered
cascade. A raw string containing both a colon and a space is parsed only
against the metadata convention, by splitting on the first space and parsing
the date part as `YYYY:MM:DD`; if that fails the strategy yields no date
without trying the other formats (so the time part is not optional: a bare
`YYYY:MM:DD`, and an ISO date followed by a time, both yield no date). Any
other nonempty string has its first 10 characters tried against `YYYY-MM-DD`,
`YYYY/MM/DD`, `DD/MM/YYYY` in order, first success winning. Every valid
string matching `YYYY:MM:DD HH:MM:SS` normalizes to the `YYYY-MM-DD`
rendering of the same calendar date, and an unparseable string yields no date
(`None`) rather than an error. -/
theorem parse_date_string_resolution :
    (∀ s : String, containsChar s ':' = true → containsChar s ' ' = true →
      parse_date_string s = (strptimeDate (parseYMD ':') (beforeFirstSpace s)).map formatDate)
  ∧ (∀ s : String, s ≠ "" → (containsChar s ':' && containsChar s ' ') = false →
      parse_date_string s =
        ((strptimeDate (parseYMD '-') (take10 s)).map formatDate <|>
         ((strptimeDate (parseYMD '/') (take10 s)).map formatDate <|>
          (strptimeDate (parseDMY '/') (take10 s)).map formatDate)))
  ∧ (∀ (dt : Date) (t : String), validDate dt = true →
      parse_date_string (formatColonDate dt ++ " " ++ t) = some (formatDate dt)) := by
  refine ⟨?_, ?_, ?_⟩
  · intro s h1 h2
    have hne : s ≠ "" := by
      intro he
      rw [he] at h1
      exact absurd h1 (by decide)
    unfold parse_date_string
    rw [if_neg hne, if_pos (by rw [h1, h2]; rfl)]
  · intro s hne hb
    unfold parse_date_string
    rw [if_neg hne, if_neg (by rw [hb]; decide)]
  · intro dt t hv
    have hdata := append_space_data (formatColonDate dt) t
    have hne : (formatColonDate dt ++ " " ++ t) ≠ "" := by
      intro he
      have h0 := congrArg String.data he
      rw [hdata] at h0
      simp at h0
    have h1 : containsChar (formatColonDate dt ++ " " ++ t) ':' = true := by
      unfold containsChar
      rw [hdata, List.any_eq_true]
      exact ⟨':', by rw [formatColonDate_data]; simp, rfl⟩
    have h2 : containsChar (formatColonDate dt ++ " " ++ t) ' ' = true := by
      unfold containsChar
      rw [hdata, List.any_eq_true]
      exact ⟨' ', by simp, rfl⟩
    have hbefore : beforeFirstSpace (formatColonDate dt ++ " " ++ t) = formatColonDate dt := by
      unfold beforeFirstSpace
      rw [hdata,
        takeWhile_append_stop _ _ _ _ (mem_formatColonDate_bne_space dt) (by decide)]
    unfold parse_date_string
    rw [if_neg hne, if_pos (by rw [h1, h2]; rfl), hbefore, strptime_colon_format dt hv]
    rfl

theorem parse_date_string_resolution_witness :
    parse_date_string "2023:08:15 14:30:45" = some "2023-08-15" ∧
    parse_date_string "15/08/2023" = some "2023-08-15" := by
  constructor
  · have h := parse_date_string_resolution.2.2 ⟨2023, 8, 15⟩ "14:30:45" (by decide)
    have e1 : formatColonDate ⟨2023, 8, 15⟩ ++ " " ++ "14:30:45" = "2023:08:15 14:30:45" := by
      decide
    have e2 : formatDate ⟨2023, 8, 15⟩ = "2023-08-15" := by decide
    rw [e1, e2] at h
    exact h
  · have h := parse_date_string_resolution.2.1 "15/08/2023" (by decide) (by decide)
    rw [h]
    decide

/-- C2 counterexample: the claim says the formats are tried in order on every
string, with the time part of the metadata convention optional. But
`"2023-08-15 10:30:00"` (a valid ISO date followed by a time) contains both a
colon and a space, so only the metadata convention is attempted and the
strategy yields `None`, even though the ISO format parses its first 10
characters successfully; and the bare `"2023:08:15"` (metadata convention
without the optional time part) also yields `None`. -/
theorem parse_date_string_claim_counterexample :
    parse_date_string "2023-08-15 10:30:00" = none ∧
    strptimeDate (parseYMD '-') (take10 "2023-08-15 10:30:00") = some ⟨2023, 8, 15⟩ ∧
    parse_date_string "2023:08:15" = none :=
  ⟨by decide, by decide, by decide⟩

/-- C1 (amended): `get_date_taken` resolves first-match-wins: the primary
(PIL) strategy, then the secondary (exifread) strategy with tag priority
DateTimeOriginal, DateTimeDigitized, DateTime, then — when fallback is
permitted (the default) — the file modification timestamp truncated to its
date component, else `NotFound` (`none`). Within the PIL strategy,
DateTimeOriginal then DateTimeDigitized from the Exif sub-block take
priority, and the top-level tags (DateTimeOriginal, DateTimeDigitized, then
DateTime) are consulted whenever the sub-block consultation yields no
parseable date — in particular, but not only, when the sub-block is absent
or empty. -/
theorem get_date_taken_resolution (env : ExifEnv) (u : Bool)
    (h1 : env.fileExists = true) (h2 : env.isFile = true) :
    (get_date_taken env u =
      ((if env.pilAvailable then get_date_with_pil env else none) <|>
       ((if env.exifreadAvailable then get_date_with_exifread env else none) <|>
        (if u then env.mtime.map (fun t => formatDate t.date) else none))))
  ∧ (∀ pd, env.pil = some pd →
      get_date_with_pil env =
        ((match pd.ifd with
          | some ifd => if ifd.isEmpty then none else tryDateTags [36867, 36868] ifd
          | none => none) <|>
         tryDateTags [36867, 36868, 306] pd.main))
  ∧ (∀ tags, env.exifreadTags = some tags →
      get_date_with_exifread env =
        firstPresentTag
          ["EXIF DateTimeOriginal", "EXIF DateTimeDigitized", "Image DateTime"] tags) := by
  refine ⟨?_, ?_, ?_⟩
  · unfold get_date_taken get_fallback_date
    rw [h1, h2]
    cases hp : (if env.pilAvailable then get_date_with_pil env else none) with
    | some d => simp
    | none =>
      cases he : (if env.exifreadAvailable then get_date_with_exifread env else none) with
      | some d => simp
      | none =>
        cases u with
        | false => simp
        | true =>
          cases hm : env.mtime with
          | some t => simp
          | none => simp
  · intro pd hpd
    simp only [get_date_with_pil, hpd]
    cases hf : (match pd.ifd with
      | some ifd => if ifd.isEmpty then (none : Option String)
                    else tryDateTags [36867, 36868] ifd
      | none => (none : Option String)) with
    | some d => simp [hf]
    | none => simp [hf]
  · intro tags ht
    simp only [get_date_with_exifread, ht]

theorem get_date_taken_resolution_witness :
    get_date_taken ⟨true, true, true,
      some ⟨[(306, "2021:05:06 01:02:03")], some []⟩, true,
      some [("EXIF DateTimeOriginal", "2020:01:02 03:04:05")],
      some ⟨⟨2019, 1, 1⟩, 0, 0, 0⟩⟩ true = some "2021-05-06" := by
  have h := (get_date_taken_resolution ⟨true, true, true,
    some ⟨[(306, "2021:05:06 01:02:03")], some []⟩, true,
    some [("EXIF DateTimeOriginal", "2020:01:02 03:04:05")],
    some ⟨⟨2019, 1, 1⟩, 0, 0, 0⟩⟩ true rfl rfl).1
  rw [h]
  decide

/-- C1 counterexample: a file whose Exif sub-block is present and non-empty
(holding only an unparseable DateTimeOriginal) while the top-level table
holds a DateTime value. The claim permits the top-level DateTime tag only
when the sub-block is absent or empty, so it predicts the fallback
modification date `"1999-01-01"`; the code consults the top-level table and
returns `"2020-01-01"`. -/
theorem get_date_taken_claim_counterexample :
    (ExifEnv.pil ⟨true, true, true,
        some ⟨[(306, "2020:01:01 00:00:00")], some [(36867, "notadate")]⟩,
        false, none, some ⟨⟨1999, 1, 1⟩, 0, 0, 0⟩⟩) =
      some ⟨[(306, "2020:01:01 00:00:00")], some [(36867, "notadate")]⟩ ∧
    tryDateTags [36867, 36868] [(36867, "notadate")] = none ∧
    get_date_taken ⟨true, true, true,
        some ⟨[(306, "2020:01:01 00:00:00")], some [(36867, "notadate")]⟩,
        false, none, some ⟨⟨1999, 1, 1⟩, 0, 0, 0⟩⟩ true = some "2020-01-01" ∧
    get_fallback_date ⟨true, true, true,
        some ⟨[(306, "2020:01:01 00:00:00")], some [(36867, "notadate")]⟩,
        false, none, some ⟨⟨1999, 1, 1⟩, 0, 0, 0⟩⟩ = some "1999-01-01" :=
  ⟨rfl, by decide, by decide, by decide⟩

theorem optMatchId (o : Option String) :
    (match o with | some v => some v | none => (none : Option String)) = o := by
  cases o <;> rfl

theorem pil_full_truthy (env : ExifEnv) (p : StrategyReport)
    (h : get_full_exif_with_pil env = some p) :
    (truthy p.datetime_original || truthy p.datetime_digitized ||
      truthy p.datetime_modified) = true := by
  unfold get_full_exif_with_pil at h
  cases hp : env.pil with
  | none => rw [hp] at h; exact absurd h (by simp)
  | some pd =>
    rw [hp] at h
    simp only [] at h
    split at h
    next hg =>
      injection h with h
      subst h
      exact hg
    next hg => exact absurd h (by simp)

theorem get_original_timestamp_eq (env : ExifEnv)
    (h1 : env.fileExists = true) (h2 : env.isFile = true) :
    get_original_timestamp env = some (
      let r1 := if env.pilAvailable then
          match get_full_exif_with_pil env with
          | some p => applyUpdate emptyReport p
          | none => emptyReport
        else emptyReport
      let r2 := if !r1.exif_found && env.exifreadAvailable then
          match get_full_exif_with_exifread env with
          | some p => applyUpdate r1 p
          | none => r1
        else r1
      { r2 with file_modification_time := env.mtime.map formatDateTime }) := by
  unfold get_original_timestamp
  rw [h1, h2]
  rfl

theorem pil_full_source (env : ExifEnv) (p : StrategyReport)
    (h : get_full_exif_with_pil env = some p) : p.source = "PIL" := by
  unfold get_full_exif_with_pil at h
  cases hp : env.pil with
  | none => rw [hp] at h; exact absurd h (by simp)
  | some pd =>
    rw [hp] at h
    simp only [] at h
    split at h
    next =>
      injection h with h
      subst h
      rfl
    next => exact absurd h (by simp)

theorem exifread_full_source (env : ExifEnv) (q : StrategyReport)
    (h : get_full_exif_with_exifread env = some q) : q.source = "exifread" := by
  unfold get_full_exif_with_exifread at h
  cases hp : env.exifreadTags with
  | none => rw [hp] at h; exact absurd h (by simp)
  | some tags =>
    rw [hp] at h
    simp only [] at h
    split at h
    next => exact absurd h (by simp)
    next =>
      injection h with h
      subst h
      rfl

/-- C4 (amended): `get_original_timestamp` sets `exif_found` exactly when a
metadata strategy returned data, PIL taking priority. The PIL strategy
returns data only when at least one of the three datetime fields is truthy,
but the exifread strategy returns data whenever it read a non-empty tag set,
even when none of the three date tags is present — so a report whose only
timestamp is the file modification time can still carry `exif_found = true`
(from exifread). `source` names the strategy that supplied the data, and
`file_modification_time` is the formatted modification timestamp. -/
theorem get_original_timestamp_spec (env : ExifEnv)
    (h1 : env.fileExists = true) (h2 : env.isFile = true) (r : FullReport)
    (hr : get_original_timestamp env = some r) :
    (r.exif_found = true ↔
      ((env.pilAvailable = true ∧ (get_full_exif_with_pil env).isSome = true) ∨
       (¬(env.pilAvailable = true ∧ (get_full_exif_with_pil env).isSome = true) ∧
        env.exifreadAvailable = true ∧ (get_full_exif_with_exifread env).isSome = true)))
  ∧ (∀ p, env.pilAvailable = true → get_full_exif_with_pil env = some p →
      r.source = some "PIL" ∧
      (truthy r.datetime_original || truthy r.datetime_digitized ||
        truthy r.datetime_modified) = true)
  ∧ (∀ q, ¬(env.pilAvailable = true ∧ (get_full_exif_with_pil env).isSome = true) →
      env.exifreadAvailable = true → get_full_exif_with_exifread env = some q →
      r.source = some "exifread" ∧ r.datetime_original = q.datetime_original ∧
      r.datetime_digitized = q.datetime_digitized ∧
      r.datetime_modified = q.datetime_modified ∧ r.exif_found = true)
  ∧ r.file_modification_time = env.mtime.map formatDateTime := by
  rw [get_original_timestamp_eq env h1 h2] at hr
  injection hr with hr
  subst hr
  refine ⟨?_, ?_, ?_, ?_⟩
  · cases hpa : env.pilAvailable with
    | true =>
      cases hpf : get_full_exif_with_pil env with
      | some p => simp [applyUpdate]
      | none =>
        cases hea : env.exifreadAvailable with
        | true =>
          cases hef : get_full_exif_with_exifread env with
          | some q => simp [applyUpdate, emptyReport]
          | none => simp [applyUpdate, emptyReport]
        | false => simp [applyUpdate, emptyReport]
    | false =>
      cases hea : env.exifreadAvailable with
      | true =>
        cases hef : get_full_exif_with_exifread env with
        | some q => simp [applyUpdate, emptyReport]
        | none => simp [applyUpdate, emptyReport]
      | false => simp [applyUpdate, emptyReport]
  · intro p hpa hpf
    rw [hpa, hpf]
    refine ⟨by simp [applyUpdate, pil_full_source env p hpf], ?_⟩
    have ht := pil_full_truthy env p hpf
    simp only [applyUpdate, emptyReport, optMatchId]
    simpa using ht
  · intro q hn hea hef
    cases hpa : env.pilAvailable with
    | true =>
      cases hpf : get_full_exif_with_pil env with
      | some p => exact absurd ⟨hpa, by rw [hpf]; rfl⟩ hn
      | none =>
        rw [hea, hef]
        simp [applyUpdate, emptyReport, optMatchId, exifread_full_source env q hef]
    | false =>
      rw [hea, hef]
      simp [applyUpdate, emptyReport, optMatchId, exifread_full_source env q hef]
  · rfl

theorem get_original_timestamp_spec_witness :
    FullReport.source ⟨true, none, none, some "2022:03:04 05:06:07",
        some "2019-01-01 00:00:00", some "PIL"⟩ = some "PIL" ∧
    (truthy (FullReport.datetime_original ⟨true, none, none,
        some "2022:03:04 05:06:07", some "2019-01-01 00:00:00", some "PIL"⟩) ||
     truthy (FullReport.datetime_digitized ⟨true, none, none,
        some "2022:03:04 05:06:07", some "2019-01-01 00:00:00", some "PIL"⟩) ||
     truthy (FullReport.datetime_modified ⟨true, none, none,
        some "2022:03:04 05:06:07", some "2019-01-01 00:00:00", some "PIL"⟩)) = true := by
  have h := (get_original_timestamp_spec ⟨true, true, true,
      some ⟨[(306, "2022:03:04 05:06:07")], some []⟩, false, none,
      some ⟨⟨2019, 1, 1⟩, 0, 0, 0⟩⟩ rfl rfl
      ⟨true, none, none, some "2022:03:04 05:06:07",
        some "2019-01-01 00:00:00", some "PIL"⟩ (by decide)).2.1
      ⟨"PIL", none, none, some "2022:03:04 05:06:07"⟩ rfl (by decide)
  exact h

/-- C4 counterexample: PIL yields nothing while exifread reads a non-empty
tag set containing no date tag. The report's only timestamp is the file
modification time, yet `exif_found` is true (claim: it must then be false). -/
theorem get_original_timestamp_claim_counterexample :
    get_original_timestamp ⟨true, true, true, none, true,
        some [("Image Make", "Canon")], some ⟨⟨1999, 1, 1⟩, 0, 0, 0⟩⟩ =
      some ⟨true, none, none, none, some "1999-01-01 00:00:00", some "exifread"⟩ := by
  decide

/-- C3: text placement uses a fixed anchor table with a 20-pixel margin:
(20, 20) for top-left; (width - textWidth - 20, 20) for top-right;
(20, height - textHeight - 20) for bottom-left; (width - textWidth - 20,
height - textHeight - 20) for bottom-right; the floor-division centre
((width - textWidth) // 2, (height - textHeight) // 2) for center; and any
other position value falls back to the bottom-right coordinates. -/
theorem calculate_text_position_spec (w h tw th : Int) (posi : String)
    (hp : ¬ posi ∈ ["top-left", "top-right", "bottom-left", "bottom-right", "center"]) :
    calculate_text_position "top-left" (w, h) (tw, th) = (20, 20)
  ∧ calculate_text_position "top-right" (w, h) (tw, th) = (w - tw - 20, 20)
  ∧ calculate_text_position "bottom-left" (w, h) (tw, th) = (20, h - th - 20)
  ∧ calculate_text_position "bottom-right" (w, h) (tw, th) = (w - tw - 20, h - th - 20)
  ∧ calculate_text_position "center" (w, h) (tw, th) = ((w - tw).fdiv 2, (h - th).fdiv 2)
  ∧ calculate_text_position posi (w, h) (tw, th) = (w - tw - 20, h - th - 20) := by
  refine ⟨rfl, rfl, rfl, rfl, rfl, ?_⟩
  simp only [List.mem_cons, List.not_mem_nil, or_false, not_or] at hp
  obtain ⟨n1, n2, n3, n4, n5⟩ := hp
  simp [calculate_text_position, n1, n2, n3, n4, n5]

theorem calculate_text_position_spec_witness :
    calculate_text_position "weird" (800, 600) (100, 30) = (680, 550) ∧
    calculate_text_position "center" (800, 600) (100, 30) = (350, 285) := by
  have h := calculate_text_position_spec 800 600 100 30 "weird" (by decide)
  refine ⟨h.2.2.2.2.2, ?_⟩
  rw [h.2.2.2.2.1]
  decide

/-- C7 (amended): `font_size` (positive), `position` (one of the five
anchors) and `output_quality` (integer 1-100) are validated at construction,
and an invalid value fails construction immediately with no clamping (the
constructed value keeps the arguments verbatim); the `color` field, however,
is accepted without any validation, so construction succeeds exactly when
the three validated fields are valid, whatever the color string is. -/
theorem mkWatermarkConfig_spec (fs q : Int) (c p : String) :
    (isOk (mkWatermarkConfig fs c p q) = true ↔
      (0 < fs ∧ 1 ≤ q ∧ q ≤ 100 ∧ p ∈ valid_positions))
  ∧ (∀ cfg, mkWatermarkConfig fs c p q = .ok cfg → cfg = ⟨fs, c, p, q⟩) := by
  constructor
  · by_cases hf : fs ≤ 0
    · rw [show mkWatermarkConfig fs c p q = .error "Font size must be positive" by
        simp [mkWatermarkConfig, hf]]
      constructor
      · intro hh; exact absurd hh (by simp [isOk])
      · rintro ⟨h1, -⟩; omega
    · by_cases hq : q < 1 ∨ q > 100
      · rw [show mkWatermarkConfig fs c p q =
            .error "Output quality must be between 1 and 100" by
          simp [mkWatermarkConfig, hf, hq]]
        constructor
        · intro hh; exact absurd hh (by simp [isOk])
        · rintro ⟨-, h2, h3, -⟩; omega
      · by_cases hp2 : p ∈ valid_positions
        · rw [show mkWatermarkConfig fs c p q = .ok ⟨fs, c, p, q⟩ by
            simp [mkWatermarkConfig, hf, hq, hp2]]
          exact ⟨fun _ => ⟨by omega, by omega, by omega, hp2⟩, fun _ => rfl⟩
        · rw [show mkWatermarkConfig fs c p q =
              .error "Position must be one of the valid positions" by
            simp [mkWatermarkConfig, hf, hq, hp2]]
          constructor
          · intro hh; exact absurd hh (by simp [isOk])
          · rintro ⟨-, -, -, h4⟩; exact absurd h4 hp2
  · intro cfg hcfg
    unfold mkWatermarkConfig at hcfg
    split at hcfg
    · exact Except.noConfusion hcfg
    · split at hcfg
      · exact Except.noConfusion hcfg
      · split at hcfg
        · exact Except.noConfusion hcfg
        · injection hcfg with hcfg
          exact hcfg.symm

theorem mkWatermarkConfig_spec_witness :
    isOk (mkWatermarkConfig 36 "white" "bottom-right" 95) = true ∧
    WatermarkConfig.mk 36 "white" "bottom-right" 95 =
      ⟨36, "white", "bottom-right", 95⟩ := by
  refine ⟨(mkWatermarkConfig_spec 36 95 "white" "bottom-right").1.mpr
    ⟨by decide, by decide, by decide, by decide⟩, ?_⟩
  exact (mkWatermarkConfig_spec 36 95 "white" "bottom-right").2
    ⟨36, "white", "bottom-right", 95⟩ rfl

/-- C7 counterexample: the `color` field is not validated at construction:
with a string that is neither a color name nor a hex color, construction
still succeeds, contradicting "for every invalid value, construction fails
immediately". -/
theorem mkWatermarkConfig_claim_counterexample :
    isOk (mkWatermarkConfig 36 "zzqq!!" "bottom-right" 95) = true ∧
    specIsValidColor "zzqq!!" = false :=
  ⟨by decide, by decide⟩

/-- C8: persistence round-trip. `to_dict` contains exactly the four fields
in order font_size, color, position, output_quality, and `from_dict` of
`to_dict` of any construction-valid configuration succeeds and returns a
field-for-field equal configuration. -/
theorem config_roundtrip (cfg : WatermarkConfig)
    (h1 : 0 < cfg.font_size) (h2 : 1 ≤ cfg.output_quality)
    (h3 : cfg.output_quality ≤ 100) (h4 : cfg.position ∈ valid_positions) :
    from_dict (to_dict cfg) = .ok cfg ∧
    (to_dict cfg).map Prod.fst = ["font_size", "color", "position", "output_quality"] := by
  refine ⟨?_, rfl⟩
  rw [show from_dict (to_dict cfg) =
      mkWatermarkConfig cfg.font_size cfg.color cfg.position cfg.output_quality from rfl]
  unfold mkWatermarkConfig
  rw [if_neg (show ¬(cfg.font_size ≤ 0) by omega),
    if_neg (show ¬(cfg.output_quality < 1 ∨ cfg.output_quality > 100) by omega),
    if_neg (not_not_intro h4)]

theorem config_roundtrip_witness :
    from_dict (to_dict ⟨24, "red", "center", 80⟩) = .ok ⟨24, "red", "center", 80⟩ :=
  (config_roundtrip ⟨24, "red", "center", 80⟩ (by decide) (by decide) (by decide)
    (by decide)).1

theorem outputPath_ne (p : PyPath) : outputPath p ≠ p := by
  intro hh
  have hl := congrArg (fun q : PyPath => q.parent.length) hh
  simp [outputPath, outputDir] at hl

theorem add_watermark_frame (env : ProcEnv) (cfg : WatermarkConfig) (st : FState)
    (p : PyPath) (d : String) (q : PyPath) (hq : q ≠ outputPath p) :
    ((add_watermark_to_image env cfg st p d).2).files q = st.files q := by
  simp only [add_watermark_to_image]
  cases hf : st.files p with
  | none => rfl
  | some img => simp [if_neg hq]

theorem add_watermark_success (env : ProcEnv) (cfg : WatermarkConfig) (st : FState)
    (p : PyPath) (d : String) (img : PyImage) (hf : st.files p = some img) :
    add_watermark_to_image env cfg st p d =
      (true,
        ⟨fun q => if q = outputPath p then
            some (draw_watermark cfg env.measure d (ensureRGB img))
          else st.files q,
         addDir (outputDir p) st.dirs⟩) := by
  simp only [add_watermark_to_image, hf]

/-- C5: stamping never mutates the source: the processed file's own content
is unchanged by `process_single_image`, every path other than the output
location is unchanged, and on success the one file written is the re-encoded
(RGB-converted, watermarked) copy at
`<parent>/<parent-basename>_watermark/<name.ext>` — under the original file
name — overwriting whatever was there; the output location is always
distinct from the source location. -/
theorem stamp_frame_effects :
    (∀ (env : ProcEnv) (cfg : WatermarkConfig) (st : FState) (p : PyPath),
      ((process_single_image env cfg st p).2).files p = st.files p)
  ∧ (∀ (env : ProcEnv) (cfg : WatermarkConfig) (st : FState) (p q : PyPath),
      q ≠ outputPath p → ((process_single_image env cfg st p).2).files q = st.files q)
  ∧ (∀ (env : ProcEnv) (cfg : WatermarkConfig) (st : FState) (p : PyPath)
      (img : PyImage) (d : String), is_supported_image_format p = true →
      st.files p = some img → get_date_taken (env.exif p) true = some d →
      process_single_image env cfg st p =
        (true,
          ⟨fun q => if q = outputPath p then
              some (draw_watermark cfg env.measure d (ensureRGB img))
            else st.files q,
           addDir (outputDir p) st.dirs⟩))
  ∧ (∀ p : PyPath, outputPath p ≠ p)
  ∧ (∀ (pp : List String) (n : String),
      outputPath ⟨pp, n⟩ = ⟨pp ++ [(pp.getLastD "") ++ "_watermark"], n⟩) := by
  refine ⟨?_, ?_, ?_, outputPath_ne, fun pp n => rfl⟩
  · intro env cfg st p
    unfold process_single_image
    cases hs : is_supported_image_format p with
    | false => rfl
    | true =>
      show (match get_date_taken (env.exif p) true with
        | none => (false, st)
        | some d => add_watermark_to_image env cfg st p d).2.files p = st.files p
      cases hd : get_date_taken (env.exif p) true with
      | none => rfl
      | some d =>
        exact add_watermark_frame env cfg st p d p (fun hh => outputPath_ne p hh.symm)
  · intro env cfg st p q hq
    unfold process_single_image
    cases hs : is_supported_image_format p with
    | false => rfl
    | true =>
      show (match get_date_taken (env.exif p) true with
        | none => (false, st)
        | some d => add_watermark_to_image env cfg st p d).2.files q = st.files q
      cases hd : get_date_taken (env.exif p) true with
      | none => rfl
      | some d => exact add_watermark_frame env cfg st p d q hq
  · intro env cfg st p img d hs hf hd
    unfold process_single_image
    rw [hs]
    show (match get_date_taken (env.exif p) true with
      | none => (false, st)
      | some d => add_watermark_to_image env cfg st p d) = _
    rw [hd]
    exact add_watermark_success env cfg st p d img hf

theorem stamp_frame_effects_witness :
    (process_single_image
      ⟨fun _ => ⟨true, true, true, some ⟨[(306, "2020:01:01 00:00:00")], none⟩,
        false, none, none⟩, fun _ => (10, 5)⟩
      ⟨36, "white", "bottom-right", 95⟩
      ⟨fun q => if q = ⟨["d"], "x.jpg"⟩ then some ⟨800, 600, "L", []⟩ else none, []⟩
      ⟨["d"], "x.jpg"⟩).1 = true := by
  have h := stamp_frame_effects.2.2.1
    ⟨fun _ => ⟨true, true, true, some ⟨[(306, "2020:01:01 00:00:00")], none⟩,
      false, none, none⟩, fun _ => (10, 5)⟩
    ⟨36, "white", "bottom-right", 95⟩
    ⟨fun q => if q = ⟨["d"], "x.jpg"⟩ then some ⟨800, 600, "L", []⟩ else none, []⟩
    ⟨["d"], "x.jpg"⟩ ⟨800, 600, "L", []⟩ "2020-01-01"
    (by decide) (by decide) (by decide)
  rw [h]

/-- C9: a file whose (case-normalized) extension is not in the allow-list is
rejected by `process_single_image` with a `False` result and no filesystem
effect at all — in particular the output directory is not created, since the
format check precedes every side effect. -/
theorem unsupported_format_rejected (env : ProcEnv) (cfg : WatermarkConfig)
    (st : FState) (p : PyPath)
    (hs : ¬ strLower (pySuffix p.name) ∈ supported_extensions) :
    process_single_image env cfg st p = (false, st) := by
  have hb : is_supported_image_format p = false := by
    unfold is_supported_image_format
    simpa using hs
  unfold process_single_image
  rw [hb]
  rfl

theorem unsupported_format_rejected_witness :
    process_single_image
      ⟨fun _ => ⟨false, false, false, none, false, none, none⟩, fun _ => (0, 0)⟩
      ⟨36, "white", "bottom-right", 95⟩
      ⟨fun _ => none, []⟩ ⟨["photos"], "doc.txt"⟩ =
      (false, ⟨fun _ => none, []⟩) :=
  unsupported_format_rejected
    ⟨fun _ => ⟨false, false, false, none, false, none, none⟩, fun _ => (0, 0)⟩
    ⟨36, "white", "bottom-right", 95⟩ ⟨fun _ => none, []⟩ ⟨["photos"], "doc.txt"⟩
    (by decide)

theorem mem_insertByName (x y : PyPath) (l : List PyPath) :
    y ∈ insertByName x l ↔ y = x ∨ y ∈ l := by
  induction l with
  | nil => simp [insertByName]
  | cons a l ih =>
    unfold insertByName
    by_cases hc : x.name ≤ a.name
    · simp only [if_pos hc, List.mem_cons]
      try tauto
    · simp only [if_neg hc, List.mem_cons, ih]
      tauto

theorem mem_sortByName (x : PyPath) (l : List PyPath) : x ∈ sortByName l ↔ x ∈ l := by
  induction l with
  | nil => simp [sortByName]
  | cons a l ih =>
    show x ∈ insertByName a (sortByName l) ↔ _
    rw [mem_insertByName]
    simp only [List.mem_cons, ih]

theorem sorted_insertByName (x : PyPath) (l : List PyPath)
    (hs : l.Pairwise (fun a b => a.name ≤ b.name)) :
    (insertByName x l).Pairwise (fun a b => a.name ≤ b.name) := by
  induction l with
  | nil => simp [insertByName]
  | cons a l ih =>
    unfold insertByName
    rcases List.pairwise_cons.1 hs with ⟨ha, hl⟩
    by_cases hc : x.name ≤ a.name
    · rw [if_pos hc]
      refine List.pairwise_cons.2 ⟨?_, hs⟩
      intro b hb
      rcases List.mem_cons.1 hb with h | h
      · rw [h]; exact hc
      · exact le_trans hc (ha b h)
    · rw [if_neg hc]
      have hxa : a.name ≤ x.name := le_of_not_le hc
      refine List.pairwise_cons.2 ⟨?_, ih hl⟩
      intro b hb
      rcases (mem_insertByName x b l).1 hb with h | h
      · rw [h]; exact hxa
      · exact ha b h

theorem sorted_sortByName (l : List PyPath) :
    (sortByName l).Pairwise (fun a b => a.name ≤ b.name) := by
  induction l with
  | nil => exact List.Pairwise.nil
  | cons a l ih => exact sorted_insertByName a _ ih

/-- C10: extension matching is case-insensitive at every entry point: a file
whose suffix lower-cases to an allow-listed extension is accepted by
`_is_supported_image_format`, is included by `_find_image_files` when listed
as a file in the directory, and is accepted by `ExifReader.is_supported_format`
whenever its lower-cased suffix lies in that reader's format list. -/
theorem case_insensitive_extensions (name e : String) (entries : List DirEntry)
    (dir : List String) (pa : Bool) (reg : List String)
    (he : e ∈ supported_extensions) (hl : strLower (pySuffix name) = e) :
    is_supported_image_format ⟨dir, name⟩ = true
  ∧ (DirEntry.mk name true ∈ entries → PyPath.mk dir name ∈ find_image_files entries dir)
  ∧ (∀ e', e' ∈ get_supported_formats pa reg → strLower (pySuffix name) = e' →
      exif_is_supported_format pa reg ⟨dir, name⟩ = true) := by
  refine ⟨?_, ?_, ?_⟩
  · unfold is_supported_image_format
    rw [hl]
    simpa using he
  · intro hmem
    unfold find_image_files
    rw [mem_sortByName]
    refine List.mem_map.2 ⟨⟨name, true⟩, List.mem_filter.2 ⟨hmem, ?_⟩, rfl⟩
    show (true && supported_extensions.contains (strLower (pySuffix name))) = true
    rw [hl]
    simpa using he
  · intro e' he' hl'
    unfold exif_is_supported_format
    rw [hl']
    simpa using he'

theorem case_insensitive_extensions_witness :
    is_supported_image_format ⟨["d"], "IMG.JPG"⟩ = true
  ∧ PyPath.mk ["d"] "IMG.JPG" ∈ find_image_files [⟨"IMG.JPG", true⟩] ["d"]
  ∧ exif_is_supported_format false [] ⟨["d"], "photo.Tif"⟩ = true := by
  have h1 := case_insensitive_extensions "IMG.JPG" ".jpg" [⟨"IMG.JPG", true⟩] ["d"]
    false [] (by decide) (by decide)
  have h2 := case_insensitive_extensions "photo.Tif" ".tif" [] ["d"]
    false [] (by decide) (by decide)
  exact ⟨h1.1, h1.2.1 (by decide), h2.2.2 ".tif" (by decide) (by decide)⟩

theorem processLoop_count (env : ProcEnv) (cfg : WatermarkConfig) (l : List PyPath)
    (st : FState) (acc : Nat) :
    (processLoop env cfg st l acc).1 =
      acc + (processFlags env cfg st l).count true := by
  induction l generalizing st acc with
  | nil => simp [processLoop, processFlags]
  | cons p ps ih =>
    simp only [processLoop, processFlags]
    cases hb : (process_single_image env cfg st p).1 with
    | false => rw [if_neg (by simp)]; rw [ih]; simp [List.count_cons]
    | true => rw [if_pos rfl]; rw [ih]; simp [List.count_cons]; omega

theorem processFlags_length (env : ProcEnv) (cfg : WatermarkConfig) (l : List PyPath)
    (st : FState) : (processFlags env cfg st l).length = l.length := by
  induction l generalizing st with
  | nil => rfl
  | cons p ps ih => simp [processFlags, ih]

theorem count_true_add_count_false (l : List Bool) :
    l.count true + l.count false = l.length := by
  induction l with
  | nil => rfl
  | cons b l ih => cases b <;> simp [List.count_cons] <;> omega

/-- C6: over a directory whose direct listing yields N supported image files
(in name-sorted order) of which K fail, `process_directory` attempts every
one of the N files sequentially and returns exactly (N - K, N); an empty or
no-match directory returns (0, 0) with the filesystem untouched. -/
theorem process_directory_spec (env : ProcEnv) (cfg : WatermarkConfig) (st : FState)
    (entries : List DirEntry) (dir : List String) :
    (process_directory env cfg st entries dir).1 =
      ((find_image_files entries dir).length -
        (processFlags env cfg st (find_image_files entries dir)).count false,
       (find_image_files entries dir).length)
  ∧ (processFlags env cfg st (find_image_files entries dir)).length =
      (find_image_files entries dir).length
  ∧ (find_image_files entries dir).Pairwise (fun a b => a.name ≤ b.name)
  ∧ (find_image_files entries dir = [] →
      process_directory env cfg st entries dir = ((0, 0), st)) := by
  refine ⟨?_, processFlags_length env cfg _ st, sorted_sortByName _, ?_⟩
  · unfold process_directory
    by_cases h0 : (find_image_files entries dir).length = 0
    · rw [if_pos h0]
      have hnil : find_image_files entries dir = [] := List.length_eq_zero.1 h0
      rw [hnil]
      simp [processFlags]
    · rw [if_neg h0]
      have hc := processLoop_count env cfg (find_image_files entries dir) st 0
      have hl := processFlags_length env cfg (find_image_files entries dir) st
      have ht := count_true_add_count_false
        (processFlags env cfg st (find_image_files entries dir))
      simp only [Nat.zero_add] at hc
      refine Prod.ext ?_ rfl
      show (processLoop env cfg st (find_image_files entries dir) 0).1 = _
      omega
  · intro hnil
    unfold process_directory
    rw [hnil]
    rfl

theorem process_directory_spec_witness :
    (process_directory
      ⟨fun _ => ⟨true, true, true, some ⟨[(306, "2020:01:01 00:00:00")], none⟩,
        false, none, none⟩, fun _ => (10, 5)⟩
      ⟨36, "white", "bottom-right", 95⟩
      ⟨fun q => if q = ⟨["d"], "b.jpg"⟩ then some ⟨800, 600, "RGB", []⟩ else none, []⟩
      [⟨"b.jpg", true⟩, ⟨"a.txt", true⟩] ["d"]).1 = (1, 1) := by
  have h := (process_directory_spec
    ⟨fun _ => ⟨true, true, true, some ⟨[(306, "2020:01:01 00:00:00")], none⟩,
      false, none, none⟩, fun _ => (10, 5)⟩
    ⟨36, "white", "bottom-right", 95⟩
    ⟨fun q => if q = ⟨["d"], "b.jpg"⟩ then some ⟨800, 600, "RGB", []⟩ else none, []⟩
    [⟨"b.jpg", true⟩, ⟨"a.txt", true⟩] ["d"]).1
  rw [h]
  decide

end PhotoWaterMark
